import Mathlib

/-!
# ImageWrangler core: verified model

Shallow embedding of the core logic of the ImageWrangler repository:
the bounded-concurrency worker scheduler (`src/lib/workerManager.ts`),
the input validator (`src/lib/fileValidation.ts`), the BMP encoder
(`src/lib/bmpEncoder.ts`) and the transform engine
(`src/lib/imageProcessor.ts`), together with theorems settling the
specification's claims about them.
-/

namespace ImageWrangler

/-! ## Worker scheduler (`src/lib/workerManager.ts`)

The module-level mutable state of `workerManager.ts` becomes an explicit
record.  `activeJobs` is modelled as an integer (JS `number` arithmetic
with `++`/`--`); `jobQueue` holds one entry per queued job thunk, each
tagged with the request id and a flag telling whether `w.postMessage`
will succeed synchronously for that job (the `catch (err)` branch of the
thunk in `enqueueJob` fires when the flag is `false`).  `pending` is the
key list of the `pendingOperations` map in insertion order.  `worker` is
the lazily created worker instance, identified by a generation number so
that a re-creation after a crash is observable; `nextGen` feeds fresh
generation numbers.  `resolved` and `rejected` record how each request's
promise was settled, `rejected` pairing the id with the error message
text. -/

/-- `MAX_CONCURRENCY` from `workerManager.ts`. -/
def MAX_CONCURRENCY : Int := 2

structure Sched where
  activeJobs : Int
  jobQueue : List (Nat × Bool)
  pending : List Nat
  worker : Option Nat
  nextGen : Nat
  resolved : List Nat
  rejected : List (Nat × String)
deriving Repr, DecidableEq

/-- The initial module state: no worker, empty queue and map. -/
def Sched.init : Sched :=
  { activeJobs := 0, jobQueue := [], pending := [], worker := none,
    nextGen := 0, resolved := [], rejected := [] }

/-- `getWorker()` inside a job thunk: keep the worker if present,
otherwise create a fresh one (next generation number). -/
def workerAfterGet (w : Option Nat) (g : Nat) : Option Nat × Nat :=
  match w with
  | some i => (some i, g)
  | none => (some g, g + 1)

/-- Fuel-indexed body of `processNextJob()`: while a concurrency slot
allows, pop the oldest queued job thunk (`jobQueue.shift()`), increment
`activeJobs` and run the thunk.  The thunk performs `getWorker()`, puts
the id into `pendingOperations` (before posting), then posts the
message; if the post throws synchronously, the slot is reverted
(`activeJobs--`, net unchanged), the promise rejected and
`processNextJob` retried.  Each retry consumes one queue element, so
fuel `s.jobQueue.length` makes the fuel bound unreachable. -/
def processNextJobAux : Nat → Sched → Sched
  | 0, s => s
  | fuel + 1, s =>
    if s.activeJobs < MAX_CONCURRENCY then
      match s.jobQueue with
      | [] => s
      | (id, postOk) :: rest =>
        let wg := workerAfterGet s.worker s.nextGen
        if postOk then
          { s with jobQueue := rest, activeJobs := s.activeJobs + 1,
                   worker := wg.1, nextGen := wg.2,
                   pending := s.pending ++ [id] }
        else
          processNextJobAux fuel
            { s with jobQueue := rest, activeJobs := s.activeJobs + 1 - 1,
                     worker := wg.1, nextGen := wg.2,
                     pending := s.pending ++ [id],
                     rejected := s.rejected ++ [(id, "postMessage failed")] }
    else s

/-- `processNextJob()` from `workerManager.ts`. -/
def processNextJob (s : Sched) : Sched :=
  processNextJobAux s.jobQueue.length s

/-- `enqueueJob`: append the thunk to the FIFO queue, then attempt
dispatch.  This is the shared body of `processImageAsync` and
`validateImageAsync`. -/
def enqueueJob (id : Nat) (postOk : Bool) (s : Sched) : Sched :=
  processNextJob { s with jobQueue := s.jobQueue ++ [(id, postOk)] }

/-- `worker.onmessage`: when the response id matches a pending
operation, delete it, free the slot, retry dispatch, then settle the
promise (`success = true` for `PROCESS_COMPLETE`/`VALIDATE_RESULT`,
`false` for `PROCESS_ERROR`).  An unknown id is logged and ignored. -/
def onMessage (id : Nat) (success : Bool) (s : Sched) : Sched :=
  if id ∈ s.pending then
    let s1 := processNextJob
      { s with pending := s.pending.erase id, activeJobs := s.activeJobs - 1 }
    if success then { s1 with resolved := s1.resolved ++ [id] }
    else { s1 with rejected := s1.rejected ++ [(id, "Unknown processing error")] }
  else s

/-- `worker.onerror`: reject every operation in `pendingOperations` with
an `Error('Worker crashed')`, clear the map, zero the slot count, clear
the queue, terminate and null the worker. -/
def onWorkerError (s : Sched) : Sched :=
  { s with rejected := s.rejected ++ s.pending.map (fun i => (i, "Worker crashed")),
           pending := [], activeJobs := 0, jobQueue := [], worker := none }

/-- `terminateWorker()`: tear down the worker and clear all state. -/
def terminateWorker (s : Sched) : Sched :=
  { s with worker := none, pending := [], jobQueue := [], activeJobs := 0 }

/-- One externally triggered scheduler event. -/
inductive SchedOp where
  | submit (id : Nat) (postOk : Bool)
  | message (id : Nat) (success : Bool)
  | fatal
  | terminate
deriving Repr, DecidableEq

def schedStep (s : Sched) : SchedOp → Sched
  | .submit id postOk => enqueueJob id postOk s
  | .message id success => onMessage id success s
  | .fatal => onWorkerError s
  | .terminate => terminateWorker s

/-- Run a sequence of scheduler events from the initial state. -/
def schedRun (ops : List SchedOp) : Sched :=
  ops.foldl schedStep Sched.init

/-! ### Scheduler lemmas -/

lemma processNextJobAux_activeJobs_le (fuel : Nat) (s : Sched)
    (h : s.activeJobs ≤ MAX_CONCURRENCY) :
    (processNextJobAux fuel s).activeJobs ≤ MAX_CONCURRENCY := by
  induction fuel generalizing s with
  | zero => exact h
  | succ fuel ih =>
    unfold processNextJobAux
    split
    · next hlt =>
      split
      · exact h
      · split
        · simpa using hlt
        · exact ih _ (by simpa using h)
    · exact h

lemma processNextJob_activeJobs_le (s : Sched) (h : s.activeJobs ≤ MAX_CONCURRENCY) :
    (processNextJob s).activeJobs ≤ MAX_CONCURRENCY :=
  processNextJobAux_activeJobs_le _ _ h

lemma processNextJobAux_queue_suffix (fuel : Nat) (s : Sched) :
    (processNextJobAux fuel s).jobQueue.IsSuffix s.jobQueue := by
  induction fuel generalizing s with
  | zero => exact List.suffix_refl _
  | succ fuel ih =>
    unfold processNextJobAux
    split
    · split
      · exact List.suffix_refl _
      · next id postOk rest heq =>
        split
        · simp only [heq]
          exact List.suffix_cons (id, postOk) rest
        · refine (ih _).trans ?_
          simp only [heq]
          exact List.suffix_cons (id, postOk) rest
    · exact List.suffix_refl _

lemma processNextJob_queue_suffix (s : Sched) :
    (processNextJob s).jobQueue.IsSuffix s.jobQueue :=
  processNextJobAux_queue_suffix _ _

lemma schedStep_activeJobs_le (s : Sched) (op : SchedOp)
    (h : s.activeJobs ≤ MAX_CONCURRENCY) :
    (schedStep s op).activeJobs ≤ MAX_CONCURRENCY := by
  cases op with
  | submit id postOk =>
    exact processNextJob_activeJobs_le _ (by simpa using h)
  | message id success =>
    simp only [schedStep, onMessage]
    split
    · have hle : (processNextJob
          { s with pending := s.pending.erase id,
                   activeJobs := s.activeJobs - 1 }).activeJobs ≤ MAX_CONCURRENCY :=
        processNextJob_activeJobs_le _ (by simp; omega)
      split <;> simpa using hle
    · exact h
  | fatal => simp [schedStep, onWorkerError, MAX_CONCURRENCY]
  | terminate => simp [schedStep, terminateWorker, MAX_CONCURRENCY]

lemma processNextJob_dispatch (s : Sched) (jid : Nat) (rest : List (Nat × Bool))
    (hlt : s.activeJobs < MAX_CONCURRENCY) (hq : s.jobQueue = (jid, true) :: rest) :
    processNextJob s =
      { s with jobQueue := rest, activeJobs := s.activeJobs + 1,
               worker := (workerAfterGet s.worker s.nextGen).1,
               nextGen := (workerAfterGet s.worker s.nextGen).2,
               pending := s.pending ++ [jid] } := by
  unfold processNextJob
  simp only [hq, List.length_cons]
  unfold processNextJobAux
  rw [if_pos hlt, hq]
  simp

lemma onMessage_dispatch (s : Sched) (id jid : Nat) (success : Bool)
    (rest : List (Nat × Bool))
    (hact : s.activeJobs = MAX_CONCURRENCY) (hid : id ∈ s.pending)
    (hq : s.jobQueue = (jid, true) :: rest) :
    (onMessage id success s).activeJobs = MAX_CONCURRENCY ∧
    (onMessage id success s).jobQueue = rest ∧
    (onMessage id success s).pending = s.pending.erase id ++ [jid] := by
  simp only [onMessage, if_pos hid]
  rw [processNextJob_dispatch _ jid rest (by rw [hact]; simp [MAX_CONCURRENCY])
    (by simpa using hq)]
  cases success <;> simp [hact]

lemma schedRun_activeJobs_le (ops : List SchedOp) :
    (schedRun ops).activeJobs ≤ MAX_CONCURRENCY := by
  have key : ∀ (l : List SchedOp) (s : Sched), s.activeJobs ≤ MAX_CONCURRENCY →
      (l.foldl schedStep s).activeJobs ≤ MAX_CONCURRENCY := by
    intro l
    induction l with
    | nil => intro s h; exact h
    | cons op l ih =>
      intro s h
      exact ih _ (schedStep_activeJobs_le s op h)
  exact key ops Sched.init (by simp [Sched.init, MAX_CONCURRENCY])

/-! ### Claim C1 -/

/-- Claim C1: the scheduler never runs more than `MAX_CONCURRENCY = 2`
requests at once — after any sequence of submit/response/crash/terminate
events from the initial state, `activeJobs ≤ 2`; dispatch only ever
removes jobs from the front of the FIFO queue (the queue after a
dispatch round is a suffix of the queue before it); when a running
request completes (success or failure) its slot is freed and exactly the
oldest queued request is dispatched; and submitting 5 requests at once
starts exactly 2 and queues 3, a subsequent completion dispatching
exactly the oldest queued one. -/
theorem scheduler_bounded_concurrency_fifo :
    (∀ ops : List SchedOp, (schedRun ops).activeJobs ≤ MAX_CONCURRENCY) ∧
    (∀ s : Sched, (processNextJob s).jobQueue.IsSuffix s.jobQueue) ∧
    (∀ (s : Sched) (id jid : Nat) (success : Bool) (rest : List (Nat × Bool)),
      s.activeJobs = MAX_CONCURRENCY → id ∈ s.pending →
      s.jobQueue = (jid, true) :: rest →
      (onMessage id success s).activeJobs = MAX_CONCURRENCY ∧
      (onMessage id success s).jobQueue = rest ∧
      (onMessage id success s).pending = s.pending.erase id ++ [jid]) ∧
    schedRun [.submit 1 true, .submit 2 true, .submit 3 true,
              .submit 4 true, .submit 5 true] =
      { activeJobs := 2, jobQueue := [(3, true), (4, true), (5, true)],
        pending := [1, 2], worker := some 0, nextGen := 1,
        resolved := [], rejected := [] } ∧
    schedRun [.submit 1 true, .submit 2 true, .submit 3 true,
              .submit 4 true, .submit 5 true, .message 1 true] =
      { activeJobs := 2, jobQueue := [(4, true), (5, true)],
        pending := [2, 3], worker := some 0, nextGen := 1,
        resolved := [1], rejected := [] } := by
  refine ⟨schedRun_activeJobs_le, processNextJob_queue_suffix,
    fun s id jid success rest hact hid hq =>
      onMessage_dispatch s id jid success rest hact hid hq, by decide, by decide⟩

/-- Witness for C1: the completion-dispatch part applied to the concrete
state with both slots busy on requests 1 and 2 and requests 3, 4 queued. -/
theorem scheduler_bounded_concurrency_fifo_witness :
    (onMessage 1 true
      ⟨2, [(3, true), (4, true)], [1, 2], some 0, 1, [], []⟩).activeJobs =
        MAX_CONCURRENCY ∧
    (onMessage 1 true
      ⟨2, [(3, true), (4, true)], [1, 2], some 0, 1, [], []⟩).jobQueue =
        [(4, true)] ∧
    (onMessage 1 true
      ⟨2, [(3, true), (4, true)], [1, 2], some 0, 1, [], []⟩).pending =
        [1, 2].erase 1 ++ [3] :=
  scheduler_bounded_concurrency_fifo.2.2.1
    ⟨2, [(3, true), (4, true)], [1, 2], some 0, 1, [], []⟩
    1 3 true [(4, true)] rfl (by decide) rfl

/-! ### Claim C2

The claim says that after a worker fatal error every pending **and
queued** request's future is rejected — in particular that 3 requests
submitted before the crash means 3 rejected futures.  The code's
`worker.onerror` only rejects the entries of `pendingOperations` (the
dispatched requests); jobs still sitting in `jobQueue` are discarded by
`jobQueue.length = 0` without their promises ever settling.  With
`MAX_CONCURRENCY = 2`, the third of 3 submitted requests is queued, so
its future neither resolves nor rejects. -/

/-- Counterexample to C2 as stated: submit requests 1, 2, 3 (request 3
is queued since both slots are busy), then the worker crashes.  Only
requests 1 and 2 are rejected; request 3 appears in no settlement list
and in no residual state, so its future never settles — the claim's
"all 3 futures reject with the same error text" is false. -/
theorem scheduler_fatal_drops_queued_counterexample :
    schedRun [.submit 1 true, .submit 2 true, .submit 3 true, .fatal] =
      { activeJobs := 0, jobQueue := [], pending := [], worker := none,
        nextGen := 1, resolved := [],
        rejected := [(1, "Worker crashed"), (2, "Worker crashed")] } ∧
    (∀ p ∈ (schedRun [.submit 1 true, .submit 2 true, .submit 3 true,
        .fatal]).rejected, p.1 ≠ 3) ∧
    3 ∉ (schedRun [.submit 1 true, .submit 2 true, .submit 3 true,
        .fatal]).resolved := by
  decide

/-- Claim C2 as amended: on a worker fatal error, every **dispatched**
request (every entry of the pending map) is rejected with the same
shared error text ("Worker crashed"); queued-but-undispatched jobs are
discarded without settling; all bookkeeping (slot count, job queue,
pending map, worker handle) is reset to empty; and the next submit
transparently dispatches on a freshly created worker.  In the 3-request
scenario, the 2 running futures reject with the same text, and a
subsequent submit runs on a new worker generation. -/
theorem scheduler_fatal_reset_selfheal :
    (∀ s : Sched,
      (onWorkerError s).rejected =
        s.rejected ++ s.pending.map (fun i => (i, "Worker crashed")) ∧
      (onWorkerError s).pending = [] ∧
      (onWorkerError s).jobQueue = [] ∧
      (onWorkerError s).activeJobs = 0 ∧
      (onWorkerError s).worker = none) ∧
    (∀ (s : Sched) (id : Nat),
      (enqueueJob id true (onWorkerError s)).worker = some s.nextGen ∧
      (enqueueJob id true (onWorkerError s)).pending = [id] ∧
      (enqueueJob id true (onWorkerError s)).activeJobs = 1 ∧
      (enqueueJob id true (onWorkerError s)).jobQueue = []) ∧
    schedRun [.submit 1 true, .submit 2 true, .submit 3 true, .fatal,
              .submit 4 true] =
      { activeJobs := 1, jobQueue := [], pending := [4], worker := some 1,
        nextGen := 2, resolved := [],
        rejected := [(1, "Worker crashed"), (2, "Worker crashed")] } := by
  refine ⟨fun s => ⟨rfl, rfl, rfl, rfl, rfl⟩, fun s id => ?_, by decide⟩
  simp [enqueueJob, onWorkerError, processNextJob, processNextJobAux,
    MAX_CONCURRENCY, workerAfterGet]

/-! ## Input validator (`src/lib/fileValidation.ts`)

A `File` is modelled by its byte content (`file.size` is the byte
count), its declared MIME type string (`file.type`) and the outcome of
the `createImageBitmap` bounds probe: `none` when the decode throws,
`some (w, h)` when it yields a bitmap of that size. -/

/-- `SecurityConstants` from `src/lib/types.ts`. -/
def MAX_WIDTH : Nat := 15000
def MAX_HEIGHT : Nat := 15000
def MAX_PIXELS : Nat := 50000000
def MAX_FILE_SIZE : Nat := 100 * 1024 * 1024

structure FileModel where
  bytes : List Nat
  declaredType : String
  probe : Option (Nat × Nat)
deriving Repr, DecidableEq

/-- `FILE_SIGNATURES` from `fileValidation.ts`, in `Object.entries`
insertion order. -/
def FILE_SIGNATURES : List (String × List (List Nat)) :=
  [("image/jpeg", [[0xFF, 0xD8, 0xFF, 0xE0], [0xFF, 0xD8, 0xFF, 0xE1],
                   [0xFF, 0xD8, 0xFF, 0xE8], [0xFF, 0xD8, 0xFF, 0xDB]]),
   ("image/png", [[0x89, 0x50, 0x4E, 0x47, 0x0D, 0x0A, 0x1A, 0x0A]]),
   ("image/webp", [[0x52, 0x49, 0x46, 0x46]]),
   ("image/bmp", [[0x42, 0x4D]]),
   ("image/gif", [[0x47, 0x49, 0x46, 0x38, 0x37, 0x61],
                  [0x47, 0x49, 0x46, 0x38, 0x39, 0x61]])]

/-- `matchesSignature`: `sig.every((byte, index) => header[index] === byte)`
for some signature in the list.  Indexing past the end of the file gives
`undefined`, which never equals a byte, so a signature matches exactly
when it is a prefix of the byte content (all signatures are shorter than
the 16-byte header slice). -/
def matchesSignature (bytes : List Nat) (signatures : List (List Nat)) : Bool :=
  signatures.any fun sig => sig.isPrefixOf bytes

/-- `isWebP`: RIFF tag at bytes 0–3 and WEBP tag at bytes 8–11. -/
def isWebP (bytes : List Nat) : Bool :=
  bytes.get? 0 == some 0x52 && bytes.get? 1 == some 0x49 &&
  bytes.get? 2 == some 0x46 && bytes.get? 3 == some 0x46 &&
  bytes.get? 8 == some 0x57 && bytes.get? 9 == some 0x45 &&
  bytes.get? 10 == some 0x42 && bytes.get? 11 == some 0x50

/-- Loop body of `detectImageType`: walk the signature table in order;
the `image/webp` entry runs the nested RIFF/WEBP tag check and
`continue`s on failure, every other entry uses `matchesSignature`. -/
def detectLoop (bytes : List Nat) : List (String × List (List Nat)) → Option String
  | [] => none
  | (mimeType, signatures) :: rest =>
    if mimeType = "image/webp" then
      if isWebP bytes then some mimeType else detectLoop bytes rest
    else if matchesSignature bytes signatures then some mimeType
    else detectLoop bytes rest

/-- `detectImageType` from `fileValidation.ts`. -/
def detectImageType (bytes : List Nat) : Option String :=
  detectLoop bytes FILE_SIGNATURES

/-- `checkDimensions`: `none` means the `createImageBitmap` probe threw,
which the `catch` turns into `false` (fail closed). -/
def checkDimensions (probe : Option (Nat × Nat)) : Bool :=
  match probe with
  | none => false
  | some (w, h) =>
    if w > MAX_WIDTH || h > MAX_HEIGHT then false
    else if w * h > MAX_PIXELS then false
    else true

/-- `file.type.startsWith('image/')`, modelled as a character-prefix
test (identical to the UTF-8 prefix test on these ASCII strings). -/
def startsWithImage (s : String) : Bool :=
  "image/".data.isPrefixOf s.data

structure ValidationResult where
  isValid : Bool
  error : Option String
  detectedType : Option String
deriving Repr, DecidableEq

/-- `validateImageFile` from `fileValidation.ts`. -/
def validateImageFile (f : FileModel) : ValidationResult :=
  if f.bytes.length = 0 then
    ⟨false, some "File is empty (0 bytes)", none⟩
  else if f.bytes.length > MAX_FILE_SIZE then
    ⟨false, some "File size exceeds limit of 100MB", none⟩
  else if ¬ startsWithImage f.declaredType then
    ⟨false, some ("Invalid MIME type: " ++
      (if f.declaredType = "" then "unknown" else f.declaredType)), none⟩
  else
    match detectImageType f.bytes with
    | none =>
      ⟨false, some "File header does not match any supported image format (JPG, PNG, WebP, BMP)", none⟩
    | some detectedType =>
      if checkDimensions f.probe then ⟨true, none, some detectedType⟩
      else
        ⟨false, some "Image exceeds maximum safe dimensions (Decompression Bomb protection)", none⟩

/-! ### Claim C6 -/

/-- Claim C6: `validateImageFile` performs its checks in a fixed order,
short-circuiting on the first failure — zero-length is rejected as
empty regardless of everything else; then oversized files; then a
declared MIME type not starting with "image/"; then a file whose
leading bytes match no entry of the fixed allowlist (4 JPEG variants,
PNG, WebP via the nested RIFF/WEBP tag check, BMP, 2 GIF variants) is
rejected as unsupported — each rejection carrying that check's reason. -/
theorem validate_checks_ordered_short_circuit :
    (∀ f : FileModel, f.bytes = [] →
      validateImageFile f = ⟨false, some "File is empty (0 bytes)", none⟩) ∧
    (∀ f : FileModel, f.bytes ≠ [] → f.bytes.length > MAX_FILE_SIZE →
      validateImageFile f = ⟨false, some "File size exceeds limit of 100MB", none⟩) ∧
    (∀ f : FileModel, f.bytes ≠ [] → f.bytes.length ≤ MAX_FILE_SIZE →
      ¬ startsWithImage f.declaredType →
      validateImageFile f = ⟨false, some ("Invalid MIME type: " ++
        (if f.declaredType = "" then "unknown" else f.declaredType)), none⟩) ∧
    (∀ f : FileModel, f.bytes ≠ [] → f.bytes.length ≤ MAX_FILE_SIZE →
      startsWithImage f.declaredType →
      detectImageType f.bytes = none →
      validateImageFile f =
        ⟨false, some "File header does not match any supported image format (JPG, PNG, WebP, BMP)", none⟩) ∧
    (∀ bs : List Nat, detectImageType bs = none ↔
      (matchesSignature bs [[0xFF, 0xD8, 0xFF, 0xE0], [0xFF, 0xD8, 0xFF, 0xE1],
          [0xFF, 0xD8, 0xFF, 0xE8], [0xFF, 0xD8, 0xFF, 0xDB]] = false ∧
       matchesSignature bs [[0x89, 0x50, 0x4E, 0x47, 0x0D, 0x0A, 0x1A, 0x0A]] = false ∧
       isWebP bs = false ∧
       matchesSignature bs [[0x42, 0x4D]] = false ∧
       matchesSignature bs [[0x47, 0x49, 0x46, 0x38, 0x37, 0x61],
          [0x47, 0x49, 0x46, 0x38, 0x39, 0x61]] = false)) := by
  refine ⟨?_, ?_, ?_, ?_, ?_⟩
  · intro f h
    simp [validateImageFile, h]
  · intro f h1 h2
    have : f.bytes.length ≠ 0 := by simpa using h1
    simp [validateImageFile, this, h2]
  · intro f h1 h2 h3
    have h0 : f.bytes.length ≠ 0 := by simpa using h1
    simp [validateImageFile, h0, Nat.not_lt.mpr h2, h3]
  · intro f h1 h2 h3 h4
    have h0 : f.bytes.length ≠ 0 := by simpa using h1
    simp [validateImageFile, h0, Nat.not_lt.mpr h2, h3, h4]
  · intro bs
    simp only [detectImageType, FILE_SIGNATURES, detectLoop]
    constructor
    · intro h
      by_cases hj : matchesSignature bs [[0xFF, 0xD8, 0xFF, 0xE0], [0xFF, 0xD8, 0xFF, 0xE1],
          [0xFF, 0xD8, 0xFF, 0xE8], [0xFF, 0xD8, 0xFF, 0xDB]] = true <;>
        by_cases hp : matchesSignature bs [[0x89, 0x50, 0x4E, 0x47, 0x0D, 0x0A, 0x1A, 0x0A]] = true <;>
        by_cases hw : isWebP bs = true <;>
        by_cases hb : matchesSignature bs [[0x42, 0x4D]] = true <;>
        by_cases hg : matchesSignature bs [[0x47, 0x49, 0x46, 0x38, 0x37, 0x61],
          [0x47, 0x49, 0x46, 0x38, 0x39, 0x61]] = true <;>
        simp_all
    · intro ⟨hj, hp, hw, hb, hg⟩
      simp [hj, hp, hw, hb, hg]

/-- Witness for C6: concrete files hitting each of the four rejections
in order. -/
theorem validate_checks_ordered_short_circuit_witness :
    validateImageFile ⟨[], "image/png", some (1, 1)⟩ =
      ⟨false, some "File is empty (0 bytes)", none⟩ ∧
    validateImageFile ⟨List.replicate (MAX_FILE_SIZE + 1) 0, "image/png", some (1, 1)⟩ =
      ⟨false, some "File size exceeds limit of 100MB", none⟩ ∧
    validateImageFile ⟨[0x89], "text/plain", some (1, 1)⟩ =
      ⟨false, some ("Invalid MIME type: " ++
        (if "text/plain" = "" then "unknown" else "text/plain")), none⟩ ∧
    validateImageFile ⟨[0x00, 0x01], "image/png", some (1, 1)⟩ =
      ⟨false, some "File header does not match any supported image format (JPG, PNG, WebP, BMP)", none⟩ := by
  refine ⟨validate_checks_ordered_short_circuit.1 _ rfl,
    validate_checks_ordered_short_circuit.2.1 _ (by simp) (by simp),
    validate_checks_ordered_short_circuit.2.2.1 _ (by simp) (by decide) (by decide),
    validate_checks_ordered_short_circuit.2.2.2.1 _ (by simp) (by decide) (by decide)
      (by decide)⟩

/-! ### Claim C7 -/

/-- Claim C7: the decompression-bomb guard fails closed — for every
file passing the size/MIME/signature checks, a failed bounds probe
(`createImageBitmap` throws) means rejection, and a successful probe
with `width > MAX_WIDTH`, `height > MAX_HEIGHT` or
`width * height > MAX_PIXELS` also means rejection. -/
theorem validate_bomb_guard_fails_closed :
    (∀ f : FileModel, f.bytes ≠ [] → f.bytes.length ≤ MAX_FILE_SIZE →
      startsWithImage f.declaredType →
      (detectImageType f.bytes).isSome →
      f.probe = none →
      validateImageFile f =
        ⟨false, some "Image exceeds maximum safe dimensions (Decompression Bomb protection)", none⟩) ∧
    (∀ (f : FileModel) (w h : Nat), f.bytes ≠ [] →
      f.bytes.length ≤ MAX_FILE_SIZE →
      startsWithImage f.declaredType →
      (detectImageType f.bytes).isSome →
      f.probe = some (w, h) →
      (w > MAX_WIDTH ∨ h > MAX_HEIGHT ∨ w * h > MAX_PIXELS) →
      validateImageFile f =
        ⟨false, some "Image exceeds maximum safe dimensions (Decompression Bomb protection)", none⟩) := by
  constructor
  · intro f h1 h2 h3 h4 h5
    have h0 : f.bytes.length ≠ 0 := by simpa using h1
    obtain ⟨t, ht⟩ := Option.isSome_iff_exists.mp h4
    simp [validateImageFile, h0, Nat.not_lt.mpr h2, h3, ht, checkDimensions, h5]
  · intro f w h h1 h2 h3 h4 h5 h6
    have h0 : f.bytes.length ≠ 0 := by simpa using h1
    obtain ⟨t, ht⟩ := Option.isSome_iff_exists.mp h4
    have hdim : checkDimensions f.probe = false := by
      rw [h5]
      simp only [checkDimensions]
      rcases h6 with h6 | h6 | h6 <;> simp [h6]
    simp [validateImageFile, h0, Nat.not_lt.mpr h2, h3, ht, hdim]

/-- Witness for C7: a PNG-signed file whose probe throws, and one whose
probe reports 60000000 pixels. -/
theorem validate_bomb_guard_fails_closed_witness :
    validateImageFile ⟨[0x89, 0x50, 0x4E, 0x47, 0x0D, 0x0A, 0x1A, 0x0A],
        "image/png", none⟩ =
      ⟨false, some "Image exceeds maximum safe dimensions (Decompression Bomb protection)", none⟩ ∧
    validateImageFile ⟨[0x89, 0x50, 0x4E, 0x47, 0x0D, 0x0A, 0x1A, 0x0A],
        "image/png", some (10000, 6000)⟩ =
      ⟨false, some "Image exceeds maximum safe dimensions (Decompression Bomb protection)", none⟩ :=
  ⟨validate_bomb_guard_fails_closed.1 _ (by simp) (by decide) (by decide)
      (by decide) rfl,
    validate_bomb_guard_fails_closed.2 _ 10000 6000 (by simp) (by decide)
      (by decide) (by decide) rfl (by decide)⟩

/-! ### Claim C10 -/

/-- Claim C10: `validateImageFile` does not enforce agreement between
the declared MIME subtype and the detected signature — any declared
type starting with "image/" plus any allowlisted magic-byte match plus
in-bounds dimensions yields acceptance reporting the signature-detected
type; concretely, a file declared "image/jpeg" whose bytes carry the
PNG signature is accepted as "image/png". -/
theorem validate_accepts_mime_signature_mismatch :
    (∀ (f : FileModel) (t : String), f.bytes ≠ [] →
      f.bytes.length ≤ MAX_FILE_SIZE →
      startsWithImage f.declaredType →
      detectImageType f.bytes = some t →
      checkDimensions f.probe = true →
      validateImageFile f = ⟨true, none, some t⟩) ∧
    validateImageFile ⟨[0x89, 0x50, 0x4E, 0x47, 0x0D, 0x0A, 0x1A, 0x0A],
        "image/jpeg", some (10, 10)⟩ =
      ⟨true, none, some "image/png"⟩ := by
  constructor
  · intro f t h1 h2 h3 h4 h5
    have h0 : f.bytes.length ≠ 0 := by simpa using h1
    simp [validateImageFile, h0, Nat.not_lt.mpr h2, h3, h4, h5]
  · decide

/-- Witness for C10: the general mismatch-acceptance part applied to the
PNG-signed file declared as "image/jpeg". -/
theorem validate_accepts_mime_signature_mismatch_witness :
    validateImageFile ⟨[0x89, 0x50, 0x4E, 0x47, 0x0D, 0x0A, 0x1A, 0x0A],
        "image/jpeg", some (20, 20)⟩ =
      ⟨true, none, some "image/png"⟩ :=
  validate_accepts_mime_signature_mismatch.1 _ "image/png" (by simp)
    (by decide) (by decide) (by decide) (by decide)

/-! ## BMP encoder (`src/lib/bmpEncoder.ts`)

`encodeBMP` writes into a `DataView` at strictly increasing offsets, so
the buffer is modelled as the concatenation of the byte runs each
`set*` call produces.  `ImageData` is modelled by its width, height and
RGBA byte accessor `data : Nat → Nat` (index `(y*width+x)*4 + channel`);
`setUint8` stores its argument modulo 256. -/

/-- Little-endian bytes of a `setUint16(_, v, true)` call. -/
def u16le (v : Nat) : List Nat := [v % 256, v / 256 % 256]

/-- Little-endian bytes of a `setUint32(_, v, true)` call. -/
def u32le (v : Nat) : List Nat :=
  [v % 256, v / 256 % 256, v / 65536 % 256, v / 16777216 % 256]

/-- Little-endian bytes of a `setInt32(_, v, true)` call (two's
complement). -/
def i32le (v : Int) : List Nat := u32le ((v % 4294967296).toNat)

/-- `padding = (4 - (width * 3) % 4) % 4`. -/
def bmpPadding (width : Nat) : Nat := (4 - (width * 3) % 4) % 4

/-- `fileSize = 54 + (width * 3 + padding) * height`. -/
def bmpFileSize (width height : Nat) : Nat :=
  54 + (width * 3 + bmpPadding width) * height

/-- The 14-byte bitmap file header: "BM" written big-endian
(`setUint16(0, 0x424D, false)`), file size, two reserved words, pixel
data offset 54. -/
def bmpFileHeader (width height : Nat) : List Nat :=
  [0x42, 0x4D] ++ u32le (bmpFileSize width height) ++ u16le 0 ++ u16le 0 ++
  u32le 54

/-- The 40-byte BITMAPINFOHEADER: header size 40, width, height stored
negated (top-down), 1 plane, 24 bits per pixel, no compression, image
size 0, 2835 pixels/metre twice, 0 colors used, 0 important colors. -/
def bmpInfoHeader (width height : Nat) : List Nat :=
  u32le 40 ++ i32le width ++ i32le (-(height : Int)) ++ u16le 1 ++
  u16le 24 ++ u32le 0 ++ u32le 0 ++ i32le 2835 ++ i32le 2835 ++
  u32le 0 ++ u32le 0

/-- One pixel of row `y`: 3 bytes in B, G, R order read from the RGBA
buffer at base index `(y * width + x) * 4`; alpha is skipped. -/
def bmpPixel (data : Nat → Nat) (width y x : Nat) : List Nat :=
  [data ((y * width + x) * 4 + 2) % 256,
   data ((y * width + x) * 4 + 1) % 256,
   data ((y * width + x) * 4) % 256]

/-- One pixel row followed by its zero padding. -/
def bmpRow (data : Nat → Nat) (width y : Nat) : List Nat :=
  (List.range width).flatMap (bmpPixel data width y) ++
  List.replicate (bmpPadding width) 0

/-- `encodeBMP` from `bmpEncoder.ts`: file header, info header, then
rows for `y = 0 .. height-1` in that order (top to bottom). -/
def encodeBMP (data : Nat → Nat) (width height : Nat) : List Nat :=
  bmpFileHeader width height ++ bmpInfoHeader width height ++
  (List.range height).flatMap (bmpRow data width)

/-! ### List block-indexing lemmas -/

lemma flatMap_const_length {α β : Type} (l : List α) (f : α → List β) (L : Nat)
    (hl : ∀ a ∈ l, (f a).length = L) :
    (l.flatMap f).length = l.length * L := by
  induction l with
  | nil => simp
  | cons a t ih =>
    simp only [List.flatMap_cons, List.length_append, List.length_cons]
    rw [hl a (List.mem_cons_self a t), ih (fun b hb => hl b (List.mem_cons_of_mem a hb))]
    ring

lemma flatMap_const_getElem? {α β : Type} (l : List α) (f : α → List β)
    (L i j : Nat) (hl : ∀ a ∈ l, (f a).length = L) (hi : i < l.length)
    (hj : j < L) :
    (l.flatMap f)[L * i + j]? = (f (l.get ⟨i, hi⟩))[j]? := by
  induction l generalizing i with
  | nil => simp at hi
  | cons a t ih =>
    simp only [List.flatMap_cons]
    cases i with
    | zero =>
      rw [Nat.mul_zero, Nat.zero_add,
        List.getElem?_append_left (by rw [hl a (List.mem_cons_self a t)]; exact hj)]
      rfl
    | succ i =>
      have hfa : (f a).length = L := hl a (List.mem_cons_self a t)
      have harith : L * (i + 1) + j = L + (L * i + j) := by ring
      rw [harith, List.getElem?_append_right (by omega)]
      have : L + (L * i + j) - (f a).length = L * i + j := by omega
      rw [this, ih i (fun b hb => hl b (List.mem_cons_of_mem a hb)) (by simpa using hi)]
      rfl

lemma bmpRow_length (data : Nat → Nat) (width y : Nat) :
    (bmpRow data width y).length = 3 * width + bmpPadding width := by
  simp only [bmpRow, List.length_append, List.length_replicate]
  rw [flatMap_const_length (List.range width) (bmpPixel data width y) 3
    (fun a _ => rfl)]
  simp [Nat.mul_comm]

/-! ### Claim C5 -/

/-- Claim C5: for a `width × height` RGBA buffer, `encodeBMP` produces
exactly `54 + height * (3*width + pad)` bytes with
`pad = (4 - 3*width % 4) % 4`: a 14-byte file header starting "BM", a
40-byte info header whose height dword (bytes 22–25) holds the
two's-complement encoding of `-height` (top-down row order), and pixel
rows written top to bottom, pixel `(x, y)` occupying the 3 bytes at
offset `54 + y*(3*width+pad) + 3*x` in B, G, R order (alpha dropped),
each row ending in `pad` zero bytes. -/
theorem bmp_encoding_layout (data : Nat → Nat) (width height : Nat) :
    (encodeBMP data width height).length =
      54 + height * (3 * width + bmpPadding width) ∧
    (bmpFileHeader width height).length = 14 ∧
    (bmpInfoHeader width height).length = 40 ∧
    (encodeBMP data width height).take 14 = bmpFileHeader width height ∧
    ((encodeBMP data width height).drop 14).take 40 = bmpInfoHeader width height ∧
    (encodeBMP data width height)[0]? = some 0x42 ∧
    (encodeBMP data width height)[1]? = some 0x4D ∧
    ((encodeBMP data width height).drop 22).take 4 = i32le (-(height : Int)) ∧
    (0 < height → height ≤ 4294967296 →
      i32le (-(height : Int)) = u32le (4294967296 - height)) ∧
    (∀ x y, x < width → y < height →
      (encodeBMP data width height)[54 + y * (3 * width + bmpPadding width) + 3 * x]? =
        some (data ((y * width + x) * 4 + 2) % 256) ∧
      (encodeBMP data width height)[54 + y * (3 * width + bmpPadding width) + 3 * x + 1]? =
        some (data ((y * width + x) * 4 + 1) % 256) ∧
      (encodeBMP data width height)[54 + y * (3 * width + bmpPadding width) + 3 * x + 2]? =
        some (data ((y * width + x) * 4) % 256)) ∧
    (∀ y p, y < height → p < bmpPadding width →
      (encodeBMP data width height)[54 + y * (3 * width + bmpPadding width) + 3 * width + p]? =
        some 0) := by
  have hfh : (bmpFileHeader width height).length = 14 := by
    simp [bmpFileHeader, u16le, u32le]
  have hih : (bmpInfoHeader width height).length = 40 := by
    simp [bmpInfoHeader, u16le, u32le, i32le]
  have hrows : ∀ y ∈ List.range height,
      (bmpRow data width y).length = 3 * width + bmpPadding width :=
    fun y _ => bmpRow_length data width y
  have hbody : ((List.range height).flatMap (bmpRow data width)).length =
      height * (3 * width + bmpPadding width) := by
    rw [flatMap_const_length _ _ _ hrows, List.length_range]
  have hlen : (encodeBMP data width height).length =
      54 + height * (3 * width + bmpPadding width) := by
    simp only [encodeBMP, List.length_append, hfh, hih, hbody]
  have hsplit : encodeBMP data width height =
      (bmpFileHeader width height ++ bmpInfoHeader width height) ++
      (List.range height).flatMap (bmpRow data width) := by
    simp [encodeBMP]
  -- indexing into the pixel area
  have hpix : ∀ j y, y < height → j < 3 * width + bmpPadding width →
      (encodeBMP data width height)[54 + (y * (3 * width + bmpPadding width) + j)]? =
        (bmpRow data width y)[j]? := by
    intro j y hy hj
    rw [hsplit, List.getElem?_append_right (by simp [hfh, hih])]
    have h54 : (bmpFileHeader width height ++ bmpInfoHeader width height).length = 54 := by
      simp [hfh, hih]
    rw [h54]
    have : 54 + (y * (3 * width + bmpPadding width) + j) - 54 =
        (3 * width + bmpPadding width) * y + j := by ring_nf; omega
    rw [this,
      flatMap_const_getElem? (List.range height) (bmpRow data width)
        (3 * width + bmpPadding width) y j hrows (by simpa using hy) hj,
      List.get_range]
  refine ⟨hlen, hfh, hih, ?_, ?_, ?_, ?_, ?_, ?_, ?_, ?_⟩
  · rw [hsplit, List.append_assoc, ← hfh, List.take_left]
  · rw [hsplit, List.append_assoc, ← hfh, List.drop_left, ← hih, List.take_left]
  · rw [hsplit]
    rw [List.getElem?_append_left (by simp [hfh, hih])]
    rw [List.getElem?_append_left (by simp [hfh])]
    simp [bmpFileHeader]
  · rw [hsplit]
    rw [List.getElem?_append_left (by simp [hfh, hih])]
    rw [List.getElem?_append_left (by simp [hfh])]
    simp [bmpFileHeader, u16le, u32le]
  · have : encodeBMP data width height =
        (bmpFileHeader width height ++ u32le 40 ++ i32le width) ++
        (i32le (-(height : Int)) ++ (u16le 1 ++ u16le 24 ++ u32le 0 ++ u32le 0 ++
          i32le 2835 ++ i32le 2835 ++ u32le 0 ++ u32le 0 ++
          (List.range height).flatMap (bmpRow data width))) := by
      simp [encodeBMP, bmpInfoHeader, List.append_assoc]
    rw [this]
    have h22 : (bmpFileHeader width height ++ u32le 40 ++ i32le width).length = 22 := by
      simp [hfh, u32le, i32le]
    rw [← h22, List.drop_left]
    have h4 : (i32le (-(height : Int))).length = 4 := by simp [i32le, u32le]
    rw [← h4, List.take_left]
  · intro h1 h2
    have : ((-(height : Int)) % 4294967296).toNat = 4294967296 - height := by
      omega
    simp [i32le, this]
  · intro x y hx hy
    have hrow : ∀ k, k < 3 →
        (bmpRow data width y)[3 * x + k]? = (bmpPixel data width y x)[k]? := by
      intro k hk
      have hpxlen : ((List.range width).flatMap (bmpPixel data width y)).length =
          width * 3 := by
        rw [flatMap_const_length (List.range width) (bmpPixel data width y) 3
          (fun a _ => rfl), List.length_range]
      rw [bmpRow, List.getElem?_append_left (by rw [hpxlen]; omega),
        flatMap_const_getElem? (List.range width) (bmpPixel data width y) 3 x k
          (fun a _ => rfl) (by simpa using hx) hk,
        List.get_range]
    refine ⟨?_, ?_, ?_⟩
    · have := hpix (3 * x) y hy (by have := bmpPadding width; omega)
      rw [show 54 + y * (3 * width + bmpPadding width) + 3 * x =
        54 + (y * (3 * width + bmpPadding width) + 3 * x) by ring, this,
        show 3 * x = 3 * x + 0 by ring, hrow 0 (by omega)]
      rfl
    · have := hpix (3 * x + 1) y hy (by omega)
      rw [show 54 + y * (3 * width + bmpPadding width) + 3 * x + 1 =
        54 + (y * (3 * width + bmpPadding width) + (3 * x + 1)) by ring, this,
        hrow 1 (by omega)]
      rfl
    · have := hpix (3 * x + 2) y hy (by omega)
      rw [show 54 + y * (3 * width + bmpPadding width) + 3 * x + 2 =
        54 + (y * (3 * width + bmpPadding width) + (3 * x + 2)) by ring, this,
        hrow 2 (by omega)]
      rfl
  · intro y p hy hp
    have := hpix (3 * width + p) y hy (by omega)
    rw [show 54 + y * (3 * width + bmpPadding width) + 3 * width + p =
      54 + (y * (3 * width + bmpPadding width) + (3 * width + p)) by ring, this]
    have hpxlen : ((List.range width).flatMap (bmpPixel data width y)).length =
        width * 3 := by
      rw [flatMap_const_length (List.range width) (bmpPixel data width y) 3
        (fun a _ => rfl), List.length_range]
    rw [bmpRow, List.getElem?_append_right (by rw [hpxlen]; omega)]
    rw [hpxlen, show 3 * width + p - width * 3 = p by ring_nf; omega]
    simp [List.getElem?_replicate, hp]

/-- Witness for C5: the two's-complement height conjunct evaluated on a
concrete 2 × 3 image. -/
theorem bmp_encoding_layout_witness :
    i32le (-(3 : Nat) : Int) = u32le (4294967296 - 3) ∧
    (encodeBMP (fun i => i) 2 3)[54 + 1 * (3 * 2 + bmpPadding 2) + 3 * 1]? =
      some ((1 * 2 + 1) * 4 + 2) :=
  ⟨(bmp_encoding_layout (fun i => i) 2 3).2.2.2.2.2.2.2.2.1 (by decide) (by decide),
   by
    have h := ((bmp_encoding_layout (fun i => i) 2 3).2.2.2.2.2.2.2.2.2.1
      1 1 (by decide) (by decide)).1
    simpa using h⟩

/-! ## Transform engine (`src/lib/imageProcessor.ts`)

`processImage` and `mergeImages` interact with the platform through
`createImageBitmap`, `OffscreenCanvas`, `getContext` and
`convertToBlob`.  These effects are modelled by an environment record:
`decode` is the outcome of `createImageBitmap` (`none` = the promise
rejects), `ctxOk` whether `getContext('2d')` returns a context, and
`convert q` the byte size of the blob `convertToBlob` produces at
quality `q` (`none` = it throws/rejects).  Each run yields a trace of
resource events (decode, close, canvas allocation, draw placements)
together with the returned blob or the thrown error message.  JS
numbers are rationals here; `Math.round` is `⌊x + 1/2⌋`. -/

/-- JS `Math.round`: round half up. -/
def jsRound (q : ℚ) : Int := ⌊q + 1 / 2⌋

inductive ImageFormat where
  | jpeg
  | png
  | webp
  | bmp
deriving Repr, DecidableEq

/-- `ProcessOptions` from `src/lib/types.ts` (the fields `processImage`
reads). -/
structure ProcessOptions where
  format : ImageFormat
  quality : ℚ
  width : ℚ
  height : ℚ
  crop : Option (ℚ × ℚ × ℚ × ℚ)
  targetSizeKB : Option ℚ
deriving Repr, DecidableEq

/-- Resource events of one engine run. -/
inductive PEvent where
  | decodeBitmap
  | closeBitmap
  | allocCanvas (w h : Int)
  | draw (x y : ℚ)
deriving Repr, DecidableEq

/-- The returned blob: a standard export (format, quality argument,
byte size) or the custom BMP export of a `w × h` canvas. -/
inductive POut where
  | blob (format : ImageFormat) (quality : Option ℚ) (size : Nat)
  | bmpBlob (w h : Int)
deriving Repr, DecidableEq

/-- Platform environment of one `processImage` run. -/
structure PEnv where
  decode : Option (Nat × Nat)
  ctxOk : Bool
  convert : Option ℚ → Option Nat

/-- The binary-search loop of the "Resize by Weight" logic: 5 rounds of
probing at `midQ = (minQ + maxQ) / 2`; a probe strictly smaller than the
target becomes the current best and raises `minQ`, any other lowers
`maxQ`.  Returns the final `bestBlob` and the list of probes made, or
`error` if a `convertToBlob` rejects (the exception propagates). -/
def searchLoop (conv : ℚ → Option Nat) (targetBytes : ℚ) :
    Nat → ℚ → ℚ → Option (ℚ × Nat) →
    Except Unit (Option (ℚ × Nat) × List (ℚ × Nat))
  | 0, _, _, best => .ok (best, [])
  | n + 1, minQ, maxQ, best =>
    let midQ := (minQ + maxQ) / 2
    match conv midQ with
    | none => .error ()
    | some size =>
      if (size : ℚ) < targetBytes then
        match searchLoop conv targetBytes n midQ maxQ (some (midQ, size)) with
        | .ok (b, ps) => .ok (b, (midQ, size) :: ps)
        | .error e => .error e
      else
        match searchLoop conv targetBytes n minQ midQ best with
        | .ok (b, ps) => .ok (b, (midQ, size) :: ps)
        | .error e => .error e

/-- The full size-targeted quality search of `processImage`: try max
quality 1.0 first and return it if within budget; otherwise run
`searchLoop` for 5 iterations over `[0.01, 1.0]`; return the best
under-budget probe, else a final export at quality 0.01.  The result is
the `(quality, size)` pair of the returned blob. -/
def sizeSearchResult (conv : ℚ → Option Nat) (targetBytes : ℚ) :
    Except Unit (ℚ × Nat) :=
  match conv 1 with
  | none => .error ()
  | some a =>
    if (a : ℚ) ≤ targetBytes then .ok (1, a)
    else
      match searchLoop conv targetBytes 5 (1 / 100) 1 none with
      | .error e => .error e
      | .ok (some best, _) => .ok best
      | .ok (none, _) =>
        match conv (1 / 100) with
        | none => .error ()
        | some s => .ok (1 / 100, s)

/-- The clamped target width of `processImage`:
`Math.max(1, Math.min(Math.round(options.width), MAX_WIDTH))`. -/
def targetW (opts : ProcessOptions) : Int :=
  max 1 (min (jsRound opts.width) (MAX_WIDTH : Int))

/-- The clamped target height of `processImage`. -/
def targetH (opts : ProcessOptions) : Int :=
  max 1 (min (jsRound opts.height) (MAX_HEIGHT : Int))

/-- Body of `processImage` after a successful decode of a
`bw × bh` bitmap (the part inside the `try`). -/
def processBody (env : PEnv) (opts : ProcessOptions) (bw bh : Nat) :
    List PEvent × Except String POut :=
  -- source region (full image or crop, rounded); it only feeds drawImage
  let _src : Int × Int × Int × Int :=
    match opts.crop with
    | some (cx, cy, cw, ch) =>
      if cw > 0 ∧ ch > 0 then (jsRound cx, jsRound cy, jsRound cw, jsRound ch)
      else (0, 0, (bw : Int), (bh : Int))
    | none => (0, 0, (bw : Int), (bh : Int))
  let targetWidth : Int := targetW opts
  let targetHeight : Int := targetH opts
  if targetWidth * targetHeight > (MAX_PIXELS : Int) then
    ([], .error "Output dimensions exceed safety limit (50000000 pixels).")
  else
    let evAlloc := [PEvent.allocCanvas targetWidth targetHeight]
    if ¬ env.ctxOk then (evAlloc, .error "Could not get canvas 2D context")
    else if opts.format = .bmp then
      (evAlloc, .ok (.bmpBlob targetWidth targetHeight))
    else
      let quality : Option ℚ :=
        if opts.format = .jpeg ∨ opts.format = .webp then
          some (opts.quality / 100)
        else none
      let wantSearch : Option ℚ :=
        match opts.targetSizeKB with
        | some k =>
          if k ≠ 0 ∧ k > 0 ∧ (opts.format = .jpeg ∨ opts.format = .webp) then
            some k
          else none
        | none => none
      match wantSearch with
      | some k =>
        match sizeSearchResult (fun q => env.convert (some q)) (k * 1024) with
        | .error _ => (evAlloc, .error "Canvas export failed")
        | .ok (q, size) => (evAlloc, .ok (.blob opts.format (some q) size))
      | none =>
        match env.convert quality with
        | none => (evAlloc, .error "Canvas export failed")
        | some size => (evAlloc, .ok (.blob opts.format quality size))

/-- `processImage` from `imageProcessor.ts`: decode (a rejection
propagates with nothing decoded), then run the body inside
`try ... finally bitmap.close()` — the close event is appended on every
exit path. -/
def processImage (env : PEnv) (opts : ProcessOptions) :
    List PEvent × Except String POut :=
  match env.decode with
  | none => ([], .error "createImageBitmap failed")
  | some (bw, bh) =>
    let body := processBody env opts bw bh
    (PEvent.decodeBitmap :: body.1 ++ [PEvent.closeBitmap], body.2)

/-! ### Grid merge (`mergeImages`) -/

/-- Platform environment of one `mergeImages` run: the decode outcome
for each input file, context availability, and `convertToBlob` sizes. -/
structure MEnv where
  files : List (Option (Nat × Nat))
  ctxOk : Bool
  convert : ℚ → Option Nat

/-- The decode loop of `mergeImages`: bitmaps accumulate until the
first failing `createImageBitmap` aborts the loop (those already
decoded stay in `bitmaps` for the `finally`). -/
def decodeAll : List (Option (Nat × Nat)) → List (Nat × Nat) × Bool
  | [] => ([], true)
  | none :: _ => ([], false)
  | some d :: rest =>
    let r := decodeAll rest
    (d :: r.1, r.2)

/-- Scan for the least `c` with `n ≤ c * c` (`c = n` always works for
the fuel bound). -/
def ceilSqrtGo (n : Nat) : Nat → Nat → Nat
  | 0, c => c
  | fuel + 1, c => if n ≤ c * c then c else ceilSqrtGo n fuel (c + 1)

/-- `Math.ceil(Math.sqrt(n))`, exactly: the least `c` with `n ≤ c * c`
(the float computation is exact for the small image counts involved). -/
def ceilSqrt (n : Nat) : Nat := ceilSqrtGo n n 0

/-- `Math.ceil(a / b)` on naturals, exactly. -/
def ceilDiv (a b : Nat) : Nat := (a + b - 1) / b

/-- `Math.max(...)` over a list of dimensions. -/
def maxDim (l : List Nat) : Nat := l.foldr max 0

/-- The draw position of each bitmap: image `i` goes to grid cell
row `i / cols`, column `i % cols`, centred in its `maxW × maxH` cell. -/
def placements (dims : List (Nat × Nat)) (cols maxW maxH : Nat) :
    List (ℚ × ℚ) :=
  dims.enum.map fun p =>
    (((p.1 % cols : Nat) : ℚ) * (maxW : ℚ) + ((maxW : ℚ) - (p.2.1 : ℚ)) / 2,
     (((p.1 / cols : Nat) : ℚ) * (maxH : ℚ) + ((maxH : ℚ) - (p.2.2 : ℚ)) / 2))

/-- The grid computation of `mergeImages` once all bitmaps are decoded:
cols/rows from the image count, cell size from the dimension maxima,
the up-front area check before canvas allocation, white fill and
centred draws, then JPEG export at quality 0.9. -/
def mergeBody (menv : MEnv) (dims : List (Nat × Nat)) :
    List PEvent × Except String Nat :=
  let count := dims.length
  let cols := ceilSqrt count
  let rows := ceilDiv count cols
  let maxCellW := maxDim (dims.map Prod.fst)
  let maxCellH := maxDim (dims.map Prod.snd)
  let canvasWidth := maxCellW * cols
  let canvasHeight := maxCellH * rows
  if canvasWidth * canvasHeight > MAX_PIXELS then
    ([], .error ("Merged image size (" ++ toString canvasWidth ++ "x" ++
      toString canvasHeight ++ ") exceeds safety limits."))
  else
    (PEvent.allocCanvas (canvasWidth : Int) (canvasHeight : Int) ::
      (if menv.ctxOk then
        (placements dims cols maxCellW maxCellH).map
          (fun p => PEvent.draw p.1 p.2)
      else []),
     if ¬ menv.ctxOk then .error "Failed to create canvas context"
     else
       match menv.convert (9 / 10) with
       | none => .error "Canvas export failed"
       | some size => .ok size)

/-- `mergeImages` from `imageProcessor.ts`: empty-input guard (before
the `try`, so nothing to close), decode loop, then the grid body; the
`finally` closes every decoded bitmap on every exit path (also when a
decode partway through or the body throws). -/
def mergeImages (menv : MEnv) : List PEvent × Except String Nat :=
  if menv.files.length = 0 then ([], .error "No images to merge")
  else
    let da := decodeAll menv.files
    let body :=
      if ¬ da.2 then ([], .error "createImageBitmap failed")
      else mergeBody menv da.1
    (da.1.map (fun _ => PEvent.decodeBitmap) ++ body.1 ++
      da.1.map (fun _ => PEvent.closeBitmap), body.2)

/-! ### Size-search lemmas -/

lemma getLast?_cons_or {α : Type} (a : α) (l : List α) :
    (a :: l).getLast? = l.getLast?.or (some a) := by
  cases l with
  | nil => rfl
  | cons b t =>
    rw [List.getLast?_cons_cons]
    have hne : (b :: t).getLast?.isSome = true :=
      List.getLast?_isSome.mpr (by simp)
    obtain ⟨x, hx⟩ := Option.isSome_iff_exists.mp hne
    rw [hx]
    rfl

lemma or_some_or {α : Type} (o : Option α) (a : α) (b : Option α) :
    (o.or (some a)).or b = o.or (some a) := by
  cases o <;> rfl

/-- With every export succeeding, the search loop never fails, makes
exactly `n` probes, and its final best is the last probe strictly under
budget (or the incoming best when no probe goes under). -/
lemma searchLoop_total (sz : ℚ → Nat) (t : ℚ) (n : Nat) :
    ∀ (lo hi : ℚ) (b : Option (ℚ × Nat)),
      ∃ ps : List (ℚ × Nat), ps.length = n ∧
        searchLoop (fun q => some (sz q)) t n lo hi b =
          .ok ((ps.filter fun p => decide ((p.2 : ℚ) < t)).getLast?.or b, ps) := by
  induction n with
  | zero => intro lo hi b; exact ⟨[], rfl, rfl⟩
  | succ n ih =>
    intro lo hi b
    by_cases hlt : ((sz ((lo + hi) / 2) : ℚ) < t)
    · obtain ⟨ps, hlen, heq⟩ :=
        ih ((lo + hi) / 2) hi (some ((lo + hi) / 2, sz ((lo + hi) / 2)))
      refine ⟨((lo + hi) / 2, sz ((lo + hi) / 2)) :: ps, by simp [hlen], ?_⟩
      simp only [searchLoop]
      rw [if_pos hlt, heq,
        List.filter_cons_of_pos (by simpa using hlt), getLast?_cons_or,
        or_some_or]
    · obtain ⟨ps, hlen, heq⟩ := ih lo ((lo + hi) / 2) b
      refine ⟨((lo + hi) / 2, sz ((lo + hi) / 2)) :: ps, by simp [hlen], ?_⟩
      simp only [searchLoop]
      rw [if_neg hlt, heq,
        List.filter_cons_of_neg (by simpa using hlt)]

/-! ### Claim C3 -/

/-- Claim C3: the size-targeted quality search first probes at quality
1.0 and returns that export immediately when its size is at most the
target; otherwise it runs exactly 5 binary-search probes over
`[0.01, 1.0]`, records a probe as best exactly when strictly smaller
than the target, and finally returns the recorded best (the last
under-budget probe, which is strictly under budget) or, when no probe
went under, an export at quality 0.01 — never an error. -/
theorem size_search_behaviour (sz : ℚ → Nat) (targetBytes : ℚ) :
    (((sz 1 : ℚ) ≤ targetBytes) →
      sizeSearchResult (fun q => some (sz q)) targetBytes = .ok (1, sz 1)) ∧
    (targetBytes < (sz 1 : ℚ) →
      ∃ ps : List (ℚ × Nat), ps.length = 5 ∧
        searchLoop (fun q => some (sz q)) targetBytes 5 (1 / 100) 1 none =
          .ok ((ps.filter fun p => decide ((p.2 : ℚ) < targetBytes)).getLast?, ps) ∧
        sizeSearchResult (fun q => some (sz q)) targetBytes =
          .ok (((ps.filter fun p => decide ((p.2 : ℚ) < targetBytes)).getLast?).getD
            (1 / 100, sz (1 / 100))) ∧
        (∀ best,
          (ps.filter fun p => decide ((p.2 : ℚ) < targetBytes)).getLast? = some best →
          (best.2 : ℚ) < targetBytes)) := by
  constructor
  · intro hle
    simp only [sizeSearchResult]
    rw [if_pos hle]
  · intro hgt
    obtain ⟨ps, hlen, heq⟩ := searchLoop_total sz targetBytes 5 (1 / 100) 1 none
    rw [Option.or_none] at heq
    refine ⟨ps, hlen, heq, ?_, ?_⟩
    · simp only [sizeSearchResult]
      rw [if_neg (not_le.mpr hgt), heq]
      cases hbest : (ps.filter fun p => decide ((p.2 : ℚ) < targetBytes)).getLast? with
      | none => rfl
      | some best => rfl
    · intro best hbest
      have hmem : best ∈ ps.filter fun p => decide ((p.2 : ℚ) < targetBytes) :=
        List.mem_of_mem_getLast? hbest
      have := (List.mem_filter.mp hmem).2
      simpa using this

/-- Witness for C3: a constant-size encoder at 1000 bytes against a
2000-byte budget returns the quality-1.0 export immediately; against a
500-byte budget every probe is over budget and the quality-0.01
fallback is returned. -/
theorem size_search_behaviour_witness :
    sizeSearchResult (fun _ => some 1000) 2000 = .ok (1, 1000) ∧
    sizeSearchResult (fun _ => some 1000) 500 = .ok (1 / 100, 1000) := by
  constructor
  · exact (size_search_behaviour (fun _ => 1000) 2000).1 (by norm_num)
  · rfl

/-! ### Transform-engine trace lemmas -/

lemma processBody_trace_of_over (env : PEnv) (opts : ProcessOptions) (bw bh : Nat)
    (hgt : targetW opts * targetH opts > (MAX_PIXELS : Int)) :
    processBody env opts bw bh =
      ([], .error "Output dimensions exceed safety limit (50000000 pixels).") := by
  simp only [processBody]
  rw [if_pos hgt]

lemma processBody_trace_of_le (env : PEnv) (opts : ProcessOptions) (bw bh : Nat)
    (hle : ¬ targetW opts * targetH opts > (MAX_PIXELS : Int)) :
    (processBody env opts bw bh).1 =
      [PEvent.allocCanvas (targetW opts) (targetH opts)] := by
  simp only [processBody]
  rw [if_neg hle]
  split
  · rfl
  · split
    · rfl
    · split
      · split <;> rfl
      · split <;> rfl

lemma targetW_bounds (opts : ProcessOptions) :
    1 ≤ targetW opts ∧ targetW opts ≤ (MAX_WIDTH : Int) := by
  simp only [targetW, MAX_WIDTH]
  omega

lemma targetH_bounds (opts : ProcessOptions) :
    1 ≤ targetH opts ∧ targetH opts ≤ (MAX_HEIGHT : Int) := by
  simp only [targetH, MAX_HEIGHT]
  omega

/-! ### Claim C4 -/

/-- Claim C4: `processImage` clamps the target dimensions to
`[1, MAX_WIDTH] × [1, MAX_HEIGHT]` (both 15000) and, whenever the
clamped `targetWidth * targetHeight` exceeds `MAX_PIXELS = 50000000`,
throws before allocating any target surface — so every canvas it ever
allocates has the clamped dimensions and at most `MAX_PIXELS` pixels. -/
theorem process_never_allocates_over_maxPixels (env : PEnv) (opts : ProcessOptions) :
    (1 ≤ targetW opts ∧ targetW opts ≤ (MAX_WIDTH : Int) ∧
     1 ≤ targetH opts ∧ targetH opts ≤ (MAX_HEIGHT : Int)) ∧
    (∀ w h : Int, PEvent.allocCanvas w h ∈ (processImage env opts).1 →
      w = targetW opts ∧ h = targetH opts ∧ w * h ≤ (MAX_PIXELS : Int)) ∧
    (targetW opts * targetH opts > (MAX_PIXELS : Int) →
      ∀ bw bh : Nat, env.decode = some (bw, bh) →
        (processImage env opts).2 =
          .error "Output dimensions exceed safety limit (50000000 pixels)." ∧
        ∀ w h : Int, PEvent.allocCanvas w h ∉ (processImage env opts).1) := by
  refine ⟨⟨(targetW_bounds opts).1, (targetW_bounds opts).2,
    (targetH_bounds opts).1, (targetH_bounds opts).2⟩, ?_, ?_⟩
  · intro w h hmem
    match hdec : env.decode with
    | none =>
      rw [processImage] at hmem
      simp [hdec] at hmem
    | some (bw, bh) =>
      rw [processImage] at hmem
      simp only [hdec] at hmem
      by_cases hgt : targetW opts * targetH opts > (MAX_PIXELS : Int)
      · rw [processBody_trace_of_over env opts bw bh hgt] at hmem
        simp at hmem
      · rw [processBody_trace_of_le env opts bw bh hgt] at hmem
        simp only [List.cons_append, List.mem_cons, List.mem_append,
          List.mem_singleton] at hmem
        rcases hmem with h | h | h
        · exact absurd h (by simp)
        · cases h
          exact ⟨rfl, rfl, by omega⟩
        · exact absurd h (by simp)
  · intro hgt bw bh hdec
    constructor
    · rw [processImage]
      simp only [hdec]
      rw [show (processBody env opts bw bh).2 =
        .error "Output dimensions exceed safety limit (50000000 pixels)." from
        congrArg Prod.snd (processBody_trace_of_over env opts bw bh hgt)]
    · intro w h hmem
      rw [processImage] at hmem
      simp only [hdec] at hmem
      rw [show (processBody env opts bw bh).1 = [] from
        congrArg Prod.fst (processBody_trace_of_over env opts bw bh hgt)] at hmem
      simp at hmem

/-- Witness for C4: requesting 40000 × 40000 clamps to 15000 × 15000,
which exceeds 50000000 pixels, so the run fails with the safety-limit
error and allocates nothing. -/
theorem process_never_allocates_over_maxPixels_witness :
    (processImage ⟨some (10, 10), true, fun _ => some 5⟩
        ⟨.png, 80, 40000, 40000, none, none⟩).2 =
      .error "Output dimensions exceed safety limit (50000000 pixels)." ∧
    ∀ w h : Int, PEvent.allocCanvas w h ∉
      (processImage ⟨some (10, 10), true, fun _ => some 5⟩
        ⟨.png, 80, 40000, 40000, none, none⟩).1 :=
  (process_never_allocates_over_maxPixels
      ⟨some (10, 10), true, fun _ => some 5⟩
      ⟨.png, 80, 40000, 40000, none, none⟩).2.2
    (by norm_num [targetW, targetH, jsRound, MAX_WIDTH, MAX_HEIGHT, MAX_PIXELS])
    10 10 rfl

/-! ### Merge trace lemmas -/

lemma mergeBody_of_over (menv : MEnv) (dims : List (Nat × Nat))
    (hgt : maxDim (dims.map Prod.fst) * ceilSqrt dims.length *
      (maxDim (dims.map Prod.snd) *
        ceilDiv dims.length (ceilSqrt dims.length)) > MAX_PIXELS) :
    mergeBody menv dims =
      ([], .error ("Merged image size (" ++
        toString (maxDim (dims.map Prod.fst) * ceilSqrt dims.length) ++ "x" ++
        toString (maxDim (dims.map Prod.snd) *
          ceilDiv dims.length (ceilSqrt dims.length)) ++
        ") exceeds safety limits.")) := by
  simp only [mergeBody]
  rw [if_pos hgt]

lemma mergeBody_of_le (menv : MEnv) (dims : List (Nat × Nat))
    (hle : ¬ maxDim (dims.map Prod.fst) * ceilSqrt dims.length *
      (maxDim (dims.map Prod.snd) *
        ceilDiv dims.length (ceilSqrt dims.length)) > MAX_PIXELS) :
    (mergeBody menv dims).1 =
      PEvent.allocCanvas
        ((maxDim (dims.map Prod.fst) * ceilSqrt dims.length : Nat) : Int)
        ((maxDim (dims.map Prod.snd) *
          ceilDiv dims.length (ceilSqrt dims.length) : Nat) : Int) ::
      (if menv.ctxOk then
        (placements dims (ceilSqrt dims.length) (maxDim (dims.map Prod.fst))
          (maxDim (dims.map Prod.snd))).map (fun p => PEvent.draw p.1 p.2)
      else []) := by
  simp only [mergeBody]
  rw [if_neg hle]

/-! ### Claim C8 -/

/-- Claim C8: for a non-empty list of sources that all decode,
`mergeImages` uses `cols = ceil(sqrt N)`, `rows = ceil(N / cols)`, a
cell equal to the maximum width and height over the sources, and a
`cols*cellW × rows*cellH` canvas: when that canvas area exceeds
`MAX_PIXELS` it fails up front and never allocates; otherwise it
allocates exactly that canvas and draws image `i` centred in grid cell
`(i / cols, i % cols)`; 4 equal 100×100 images produce a 200×200
canvas with the four images drawn at the four quadrant origins. -/
theorem merge_grid_geometry :
    (∀ (menv : MEnv) (dims : List (Nat × Nat)) (cols rows cw ch : Nat),
      menv.files.length ≠ 0 →
      decodeAll menv.files = (dims, true) →
      cols = ceilSqrt dims.length →
      rows = ceilDiv dims.length cols →
      cw = maxDim (dims.map Prod.fst) * cols →
      ch = maxDim (dims.map Prod.snd) * rows →
      ((cw * ch > MAX_PIXELS →
        (mergeImages menv).2 =
          .error ("Merged image size (" ++ toString cw ++ "x" ++ toString ch ++
            ") exceeds safety limits.") ∧
        ∀ w h : Int, PEvent.allocCanvas w h ∉ (mergeImages menv).1) ∧
       (¬ cw * ch > MAX_PIXELS → menv.ctxOk = true →
        PEvent.allocCanvas (cw : Int) (ch : Int) ∈ (mergeImages menv).1 ∧
        ∀ p ∈ placements dims cols (maxDim (dims.map Prod.fst))
            (maxDim (dims.map Prod.snd)),
          PEvent.draw p.1 p.2 ∈ (mergeImages menv).1))) ∧
    (mergeImages ⟨[some (100, 100), some (100, 100), some (100, 100),
        some (100, 100)], true, fun _ => some 999⟩).1 =
      [.decodeBitmap, .decodeBitmap, .decodeBitmap, .decodeBitmap,
       .allocCanvas 200 200, .draw 0 0, .draw 100 0, .draw 0 100,
       .draw 100 100, .closeBitmap, .closeBitmap, .closeBitmap,
       .closeBitmap] ∧
    (mergeImages ⟨[some (100, 100), some (100, 100), some (100, 100),
        some (100, 100)], true, fun _ => some 999⟩).2 = .ok 999 := by
  constructor
  · intro menv dims cols rows cw ch hne hda hcols hrows hcw hch
    subst hcols; subst hrows; subst hcw; subst hch
    constructor
    · intro hgt
      constructor
      · simp only [mergeImages]
        rw [if_neg hne, hda]
        simp only []
        rw [if_neg (by simp)]
        exact congrArg Prod.snd (mergeBody_of_over menv dims hgt)
      · intro w h hmem
        simp only [mergeImages] at hmem
        rw [if_neg hne, hda] at hmem
        simp only [] at hmem
        rw [if_neg (by simp)] at hmem
        rw [show (mergeBody menv dims).1 = [] from
          congrArg Prod.fst (mergeBody_of_over menv dims hgt)] at hmem
        simp only [List.append_nil, List.mem_append, List.mem_map] at hmem
        rcases hmem with ⟨_, _, hc⟩ | ⟨_, _, hc⟩ <;> cases hc
    · intro hle hctx
      have hbody := mergeBody_of_le menv dims hle
      constructor
      · simp only [mergeImages]
        rw [if_neg hne, hda]
        simp only []
        rw [if_neg (by simp), hbody]
        simp
      · intro p hp
        simp only [mergeImages]
        rw [if_neg hne, hda]
        simp only []
        rw [if_neg (by simp), hbody, hctx]
        simp only [if_true, List.mem_append, List.mem_cons]
        refine Or.inl (Or.inr (Or.inr ?_))
        exact List.mem_map.mpr ⟨p, hp, rfl⟩
  · constructor
    · simp only [mergeImages, mergeBody, decodeAll, placements, maxDim,
        ceilSqrt, ceilSqrtGo, ceilDiv, MAX_PIXELS, List.enum, List.enumFrom,
        List.map]
      norm_num
    · rfl

/-- Witness for C8: the under-limit branch applied to two 100×100
sources — a 1×2 grid on a 200×100 canvas with both images drawn. -/
theorem merge_grid_geometry_witness :
    PEvent.allocCanvas (200 : Int) (100 : Int) ∈
      (mergeImages ⟨[some (100, 100), some (100, 100)], true,
        fun _ => some 5⟩).1 ∧
    ∀ p ∈ placements [(100, 100), (100, 100)] 2 100 100,
      PEvent.draw p.1 p.2 ∈
        (mergeImages ⟨[some (100, 100), some (100, 100)], true,
          fun _ => some 5⟩).1 :=
  (merge_grid_geometry.1
      ⟨[some (100, 100), some (100, 100)], true, fun _ => some 5⟩
      [(100, 100), (100, 100)] 2 1 200 100
      (by decide) rfl (by decide) (by decide) (by decide) (by decide)).2
    (by decide) rfl

/-! ### Claim C9 -/

lemma processBody_no_bitmap_events (env : PEnv) (opts : ProcessOptions)
    (bw bh : Nat) :
    (processBody env opts bw bh).1.count PEvent.closeBitmap = 0 ∧
    (processBody env opts bw bh).1.count PEvent.decodeBitmap = 0 := by
  by_cases hgt : targetW opts * targetH opts > (MAX_PIXELS : Int)
  · rw [show (processBody env opts bw bh).1 = [] from
      congrArg Prod.fst (processBody_trace_of_over env opts bw bh hgt)]
    exact ⟨rfl, rfl⟩
  · rw [processBody_trace_of_le env opts bw bh hgt]
    constructor <;> simp [List.count_cons]

lemma mergeBody_no_bitmap_events (menv : MEnv) (dims : List (Nat × Nat)) :
    (mergeBody menv dims).1.count PEvent.closeBitmap = 0 ∧
    (mergeBody menv dims).1.count PEvent.decodeBitmap = 0 := by
  by_cases hgt : maxDim (dims.map Prod.fst) * ceilSqrt dims.length *
      (maxDim (dims.map Prod.snd) *
        ceilDiv dims.length (ceilSqrt dims.length)) > MAX_PIXELS
  · rw [show (mergeBody menv dims).1 = [] from
      congrArg Prod.fst (mergeBody_of_over menv dims hgt)]
    exact ⟨rfl, rfl⟩
  · rw [mergeBody_of_le menv dims hgt]
    have hcnt : ∀ e : PEvent, (∀ x y : ℚ, e ≠ PEvent.draw x y) →
        (if menv.ctxOk then
          (placements dims (ceilSqrt dims.length) (maxDim (dims.map Prod.fst))
            (maxDim (dims.map Prod.snd))).map (fun p => PEvent.draw p.1 p.2)
        else []).count e = 0 := by
      intro e he
      split
      · rw [List.count_eq_zero]
        intro hmem
        obtain ⟨p, hp, heq⟩ := List.mem_map.mp hmem
        exact he p.1 p.2 heq.symm
      · rfl
    constructor
    · rw [List.count_cons, hcnt PEvent.closeBitmap (by intro x y h; cases h)]
      simp
    · rw [List.count_cons, hcnt PEvent.decodeBitmap (by intro x y h; cases h)]
      simp

/-- Claim C9: every decoded bitmap is released on every exit path — in
every `processImage` run (success, thrown error, or the BMP /
size-search early returns) the number of bitmap-close events equals the
number of successful decodes, and likewise for every `mergeImages` run
(including decode failures partway through and compositing failures). -/
theorem decoded_bitmaps_always_closed (env : PEnv) (opts : ProcessOptions)
    (menv : MEnv) :
    (processImage env opts).1.count PEvent.closeBitmap =
      (processImage env opts).1.count PEvent.decodeBitmap ∧
    (mergeImages menv).1.count PEvent.closeBitmap =
      (mergeImages menv).1.count PEvent.decodeBitmap := by
  constructor
  · match hdec : env.decode with
    | none => rw [processImage]; simp [hdec]
    | some (bw, bh) =>
      rw [processImage]
      simp only [hdec]
      obtain ⟨hc, hd⟩ := processBody_no_bitmap_events env opts bw bh
      simp [List.count_cons, List.count_append, hc, hd]
  · rw [mergeImages]
    split
    · rfl
    · simp only [List.count_append]
      have hmapc : ∀ (l : List (Nat × Nat)) (e : PEvent),
          (l.map fun _ => e).count e = l.length := by
        intro l e
        simp [List.map_const', List.count_replicate]
      have hmapne : (((decodeAll menv.files).1.map
            fun _ => PEvent.decodeBitmap).count PEvent.closeBitmap = 0) ∧
          (((decodeAll menv.files).1.map
            fun _ => PEvent.closeBitmap).count PEvent.decodeBitmap = 0) := by
        constructor <;> simp [List.map_const', List.count_replicate]
      rcases hmapne with ⟨h1, h2⟩
      split
      · simp [hmapc, h1, h2, List.count_replicate]
      · obtain ⟨hc, hd⟩ := mergeBody_no_bitmap_events menv (decodeAll menv.files).1
        simp [hmapc, h1, h2, hc, hd, List.count_replicate]

end ImageWrangler
